import Mathlib

/-!
Shallow embedding of `src/main.py`, a small FastAPI product-catalog backend
over a MongoDB document store, together with proofs about its document
serialization and query layer.

Documents are association lists from field names to BSON-like values; the
handlers of `main.py` are translated as pure functions over an explicit
database state (the `product` collection as a list of documents).  The
modules `database` and `schemas` imported by `main.py` are not part of the
repository snapshot; the few operations taken from them are modelled from
the specification and marked as such in their doc comments.
-/

/-- A store-assigned opaque identifier (BSON ObjectId), represented by its
24-character hexadecimal string form. -/
structure OID where
  hex : String
deriving DecidableEq, Repr

/-- BSON-like document values as used by this application: strings, numbers
(price), booleans, null, and opaque identifiers. -/
inductive BVal where
  | vStr (s : String)
  | vNum (q : ℚ)
  | vBool (b : Bool)
  | vNull
  | vOid (o : OID)
deriving DecidableEq, Repr

/-- A document: a Python dict as an insertion-ordered association list. -/
abbrev Doc := List (String × BVal)

/-- Dictionary lookup, `d[k]` / `d.get(k)`: first binding of the key. -/
def dget (k : String) : Doc → Option BVal
  | [] => none
  | (k', v) :: t => if k' = k then some v else dget k t

/-- The key set, `list(d.keys())`. -/
def keys (d : Doc) : List String := d.map Prod.fst

/-- Python `k in d`. -/
def dictHasKey (k : String) (d : Doc) : Bool := (dget k d).isSome

/-- Python `d.pop(k)`'s effect on the dict: the binding of `k` is removed
(a dict holds each key at most once, so removing the first binding). -/
def dictRemove (k : String) : Doc → Doc
  | [] => []
  | p :: t => if p.1 = k then t else p :: dictRemove k t

/-- Python `d[k] = v`: overwrite in place when the key exists, else append. -/
def dictSet (k : String) (v : BVal) : Doc → Doc
  | [] => [(k, v)]
  | p :: t => if p.1 = k then (k, v) :: t else p :: dictSet k v t

/-- Python `str(v)` on the values that occur in documents. -/
def pyStr : BVal → String
  | .vStr s => s
  | .vNum q => toString q
  | .vBool b => if b then "True" else "False"
  | .vNull => "None"
  | .vOid o => o.hex

/-- The loop body of `serialize_doc`: an ObjectId value is replaced by its
string form, every other value is left alone. -/
def convOid : BVal → BVal
  | .vOid o => .vStr o.hex
  | v => v

/-- `serialize_doc` from `src/main.py` (value level): empty input returned
unchanged; otherwise work on a copy, rename `_id` to `id` holding its string
form, then stringify any remaining ObjectId values. -/
def serialize_doc (doc : Doc) : Doc :=
  if doc.isEmpty then doc
  else
    let d := doc
    let d :=
      match dget "_id" d with
      | some v => dictSet "id" (.vStr (pyStr v)) (dictRemove "_id" d)
      | none => d
    d.map (fun p => (p.1, convOid p.2))

/-! ### Dictionary lemmas -/

theorem dget_eq_none_iff (k : String) (d : Doc) :
    dget k d = none ↔ k ∉ keys d := by
  induction d with
  | nil => simp [dget, keys]
  | cons p t ih =>
    by_cases hp : p.1 = k
    · simp [dget, keys, hp]
    · simp [dget, keys, hp, ih, Ne.symm hp]

theorem dget_isSome_iff (k : String) (d : Doc) :
    (dget k d).isSome = true ↔ k ∈ keys d := by
  rw [Option.isSome_iff_ne_none]
  constructor
  · intro h
    by_contra hk
    exact h ((dget_eq_none_iff k d).mpr hk)
  · intro h hnone
    exact ((dget_eq_none_iff k d).mp hnone) h

theorem dget_dictRemove_self (k : String) (d : Doc) (hd : (keys d).Nodup) :
    dget k (dictRemove k d) = none := by
  induction d with
  | nil => rfl
  | cons p t ih =>
    obtain ⟨hp, ht⟩ := List.nodup_cons.mp hd
    by_cases h : p.1 = k
    · rw [dictRemove, if_pos h, dget_eq_none_iff]
      rw [← h]; exact hp
    · rw [dictRemove, if_neg h, dget, if_neg h]
      exact ih ht

theorem dget_dictRemove_ne (k k' : String) (d : Doc) (h : k ≠ k') :
    dget k (dictRemove k' d) = dget k d := by
  induction d with
  | nil => rfl
  | cons p t ih =>
    by_cases hp : p.1 = k'
    · have hpk : p.1 ≠ k := by rw [hp]; exact Ne.symm h
      rw [dictRemove, if_pos hp, dget, if_neg hpk]
    · rw [dictRemove, if_neg hp, dget, dget]
      by_cases hk : p.1 = k
      · rw [if_pos hk, if_pos hk]
      · rw [if_neg hk, if_neg hk]; exact ih

theorem dget_map_val (k : String) (f : BVal → BVal) (d : Doc) :
    dget k (d.map (fun p => (p.1, f p.2))) = (dget k d).map f := by
  induction d with
  | nil => rfl
  | cons p t ih =>
    by_cases hk : p.1 = k
    · simp [dget, hk]
    · simpa [dget, hk] using ih

theorem dget_dictSet_self (k : String) (v : BVal) (d : Doc) :
    dget k (dictSet k v d) = some v := by
  induction d with
  | nil => simp [dictSet, dget]
  | cons p t ih =>
    by_cases hp : p.1 = k
    · rw [dictSet, if_pos hp, dget, if_pos rfl]
    · rw [dictSet, if_neg hp, dget, if_neg hp]; exact ih

theorem dget_dictSet_ne (k k' : String) (v : BVal) (d : Doc) (h : k ≠ k') :
    dget k (dictSet k' v d) = dget k d := by
  induction d with
  | nil => simp [dictSet, dget, Ne.symm h]
  | cons p t ih =>
    by_cases hp : p.1 = k'
    · have hpk : p.1 ≠ k := by rw [hp]; exact Ne.symm h
      rw [dictSet, if_pos hp, dget, if_neg (Ne.symm h), dget, if_neg hpk]
    · rw [dictSet, if_neg hp, dget, dget]
      by_cases hk : p.1 = k
      · rw [if_pos hk, if_pos hk]
      · rw [if_neg hk, if_neg hk]; exact ih

theorem keys_dictSet_subset (k k' : String) (v : BVal) (d : Doc)
    (h : k' ∈ keys (dictSet k v d)) : k' = k ∨ k' ∈ keys d := by
  induction d with
  | nil => simpa [dictSet, keys] using h
  | cons p t ih =>
    by_cases hp : p.1 = k
    · rw [dictSet, if_pos hp] at h
      rcases List.mem_cons.mp h with h1 | h2
      · exact Or.inl h1
      · exact Or.inr (List.mem_cons.mpr (Or.inr h2))
    · rw [dictSet, if_neg hp] at h
      rcases List.mem_cons.mp h with h1 | h2
      · exact Or.inr (List.mem_cons.mpr (Or.inl h1))
      · rcases ih h2 with h3 | h4
        · exact Or.inl h3
        · exact Or.inr (List.mem_cons.mpr (Or.inr h4))

theorem keys_dictRemove_subset (k k' : String) (d : Doc)
    (h : k' ∈ keys (dictRemove k d)) : k' ∈ keys d := by
  induction d with
  | nil => simpa [dictRemove] using h
  | cons p t ih =>
    by_cases hp : p.1 = k
    · rw [dictRemove, if_pos hp] at h
      exact List.mem_cons.mpr (Or.inr h)
    · rw [dictRemove, if_neg hp] at h
      rcases List.mem_cons.mp h with h1 | h2
      · exact List.mem_cons.mpr (Or.inl h1)
      · exact List.mem_cons.mpr (Or.inr (ih h2))

theorem keys_map_val (f : BVal → BVal) (d : Doc) :
    keys (d.map (fun p => (p.1, f p.2))) = keys d := by
  induction d with
  | nil => rfl
  | cons p t ih => simp [keys]

/-! ### serialize_doc: field-level characterization (C1) -/

theorem dget_serialize_doc (doc : Doc) (k : String) (hnd : (keys doc).Nodup) :
    dget k (serialize_doc doc) =
      match dget "_id" doc with
      | some v =>
          if k = "id" then some (BVal.vStr (pyStr v))
          else if k = "_id" then none
          else (dget k doc).map convOid
      | none => (dget k doc).map convOid := by
  by_cases he : doc.isEmpty
  · have hd : doc = [] := by simpa using he
    subst hd
    simp [serialize_doc, dget]
  · rw [serialize_doc, if_neg he]
    simp only []
    cases hid : dget "_id" doc with
    | some v =>
      rw [dget_map_val]
      by_cases hk : k = "id"
      · subst hk
        rw [dget_dictSet_self]
        rfl
      · rw [dget_dictSet_ne _ _ _ _ hk]
        by_cases hk2 : k = "_id"
        · subst hk2
          rw [dget_dictRemove_self _ _ hnd]
          simp [hk]
        · rw [dget_dictRemove_ne _ _ _ hk2]
          simp [hk, hk2]
    | none =>
      rw [dget_map_val]

theorem isSome_map_val (f : BVal → BVal) (o : Option BVal) :
    (o.map f).isSome = o.isSome := by
  cases o <;> rfl

/-- C1: for every input document with dict-like keys, `serialize_doc`
removes the internal `_id` field, exposes it as the string field `id`,
stringifies any other ObjectId-valued field, leaves every other field
unchanged, introduces no key other than `id`, and returns an empty input
unchanged. -/
theorem serialize_doc_spec (doc : Doc) (hnd : (keys doc).Nodup) :
    (doc.isEmpty = true → serialize_doc doc = doc)
    ∧ dget "_id" (serialize_doc doc) = none
    ∧ (∀ v, dget "_id" doc = some v →
        dget "id" (serialize_doc doc) = some (.vStr (pyStr v)))
    ∧ (∀ k v, k ≠ "_id" → k ≠ "id" → dget k doc = some v →
        dget k (serialize_doc doc) = some (convOid v))
    ∧ (dget "_id" doc = none → ∀ v, dget "id" doc = some v →
        dget "id" (serialize_doc doc) = some (convOid v))
    ∧ (∀ k, k ∈ keys (serialize_doc doc) → k = "id" ∨ k ∈ keys doc)
    ∧ (∀ k, k ∈ keys doc → k ≠ "_id" → k ∈ keys (serialize_doc doc)) := by
  refine ⟨?_, ?_, ?_, ?_, ?_, ?_, ?_⟩
  · intro he
    have hd : doc = [] := by simpa using he
    subst hd
    rfl
  · rw [dget_serialize_doc doc _ hnd]
    cases hid : dget "_id" doc with
    | some v => simp
    | none => simp [hid]
  · intro v hv
    rw [dget_serialize_doc doc _ hnd, hv]
    simp
  · intro k v hk1 hk2 hv
    rw [dget_serialize_doc doc _ hnd]
    cases hid : dget "_id" doc with
    | some w => simp [hk1, hk2, hv]
    | none => simp [hv]
  · intro hid v hv
    rw [dget_serialize_doc doc _ hnd, hid, hv]
    rfl
  · intro k hk
    rw [← dget_isSome_iff] at hk
    rw [dget_serialize_doc doc _ hnd] at hk
    cases hid : dget "_id" doc with
    | some w =>
      rw [hid] at hk
      by_cases h1 : k = "id"
      · exact Or.inl h1
      · by_cases h2 : k = "_id"
        · simp [h1, h2] at hk
        · simp only [h1, h2, if_false] at hk
          rw [isSome_map_val] at hk
          exact Or.inr ((dget_isSome_iff k doc).mp hk)
    | none =>
      rw [hid] at hk
      rw [isSome_map_val] at hk
      exact Or.inr ((dget_isSome_iff k doc).mp hk)
  · intro k hk hne
    rw [← dget_isSome_iff] at hk ⊢
    rw [dget_serialize_doc doc _ hnd]
    cases hid : dget "_id" doc with
    | some w =>
      by_cases h1 : k = "id"
      · simp [h1]
      · simp only [h1, hne, if_false]
        rw [isSome_map_val]
        exact hk
    | none =>
      rw [isSome_map_val]
      exact hk

/-- A concrete stored document used to instantiate C1's theorem. -/
def docC1 : Doc :=
  [("_id", .vOid ⟨"64a1f0c2e4b0a1b2c3d4e5f6"⟩),
   ("title", .vStr "Essential Tee"),
   ("price", .vNum 24),
   ("category", .vStr "Tops"),
   ("supplier", .vOid ⟨"64a1f0c2e4b0a1b2c3d4e5f7"⟩)]

/-- Witness for C1 at a concrete document. -/
theorem serialize_doc_spec_witness :
    (keys docC1).Nodup ∧
    ((docC1.isEmpty = true → serialize_doc docC1 = docC1)
     ∧ dget "_id" (serialize_doc docC1) = none
     ∧ (∀ v, dget "_id" docC1 = some v →
         dget "id" (serialize_doc docC1) = some (.vStr (pyStr v)))
     ∧ (∀ k v, k ≠ "_id" → k ≠ "id" → dget k docC1 = some v →
         dget k (serialize_doc docC1) = some (convOid v))
     ∧ (dget "_id" docC1 = none → ∀ v, dget "id" docC1 = some v →
         dget "id" (serialize_doc docC1) = some (convOid v))
     ∧ (∀ k, k ∈ keys (serialize_doc docC1) → k = "id" ∨ k ∈ keys docC1)
     ∧ (∀ k, k ∈ keys docC1 → k ≠ "_id" → k ∈ keys (serialize_doc docC1))) :=
  ⟨by decide, serialize_doc_spec docC1 (by decide)⟩

/-! ### A small heap model for the aliasing behaviour of serialize_doc (C9) -/

/-- A heap of Python dict objects: references are numbers below `next`. -/
structure Heap where
  cells : Nat → Doc
  next : Nat

/-- Read the dict object a reference points to. -/
def hread (h : Heap) (r : Nat) : Doc := h.cells r

/-- Overwrite the dict object a reference points to. -/
def hwrite (h : Heap) (r : Nat) (d : Doc) : Heap :=
  ⟨fun i => if i = r then d else h.cells i, h.next⟩

/-- Allocate a fresh dict object (`dict(doc)` builds one). -/
def halloc (h : Heap) (d : Doc) : Nat × Heap :=
  (h.next, ⟨fun i => if i = h.next then d else h.cells i, h.next + 1⟩)

/-- `serialize_doc` from `src/main.py` at the object level: the argument is
a reference to the caller's dict; `d = dict(doc)` allocates a copy, and
every mutation (`pop`, item assignment, the conversion loop) targets the
copy.  Returns the reference the function returns and the final heap. -/
def serialize_doc_run (h : Heap) (r : Nat) : Nat × Heap :=
  if (hread h r).isEmpty then (r, h)
  else
    let (rd, h1) := halloc h (hread h r)
    let h2 :=
      match dget "_id" (hread h1 rd) with
      | some v =>
          hwrite h1 rd (dictSet "id" (.vStr (pyStr v))
            (dictRemove "_id" (hread h1 rd)))
      | none => h1
    let h3 := hwrite h2 rd ((hread h2 rd).map (fun p => (p.1, convOid p.2)))
    (rd, h3)

/-- C9: `serialize_doc` never mutates its input object: after the call the
caller's dict (any reference allocated before the call) holds exactly the
value it held before, and the returned object holds the value-level
`serialize_doc` of the input. -/
theorem serialize_doc_run_frame (h : Heap) (r : Nat) (hr : r < h.next) :
    hread (serialize_doc_run h r).2 r = hread h r
    ∧ hread (serialize_doc_run h r).2 (serialize_doc_run h r).1 =
        serialize_doc (hread h r) := by
  have hne : r ≠ h.next := Nat.ne_of_lt hr
  by_cases he : (hread h r).isEmpty
  · constructor
    · rw [serialize_doc_run, if_pos he]
    · rw [serialize_doc_run, if_pos he, serialize_doc, if_pos he]
  · have hrun : serialize_doc_run h r =
        (h.next,
         hwrite
           (match dget "_id" (hread h r) with
            | some v =>
                hwrite ⟨fun i => if i = h.next then hread h r else h.cells i,
                        h.next + 1⟩ h.next
                  (dictSet "id" (.vStr (pyStr v))
                    (dictRemove "_id" (hread h r)))
            | none => ⟨fun i => if i = h.next then hread h r else h.cells i,
                       h.next + 1⟩)
           h.next
           ((match dget "_id" (hread h r) with
             | some v => dictSet "id" (.vStr (pyStr v))
                 (dictRemove "_id" (hread h r))
             | none => hread h r).map
               (fun (p : String × BVal) => (p.1, convOid p.2)))) := by
      rw [serialize_doc_run, if_neg he]
      cases hid : dget "_id" (h.cells r) with
      | some v => simp [halloc, hread, hwrite, hid]
      | none => simp [halloc, hread, hwrite, hid]
    constructor
    · rw [hrun]
      cases hid : dget "_id" (hread h r) with
      | some v => simp [hread, hwrite, hne]
      | none => simp [hread, hwrite, hne]
    · rw [hrun, serialize_doc, if_neg he]
      simp only []
      cases hid : dget "_id" (hread h r) with
      | some v => simp [hread, hwrite]
      | none => simp [hread, hwrite]

/-- A concrete pre-call heap: cell 0 holds a stored document. -/
def heapC9 : Heap :=
  ⟨fun i => if i = 0 then docC1 else [], 1⟩

/-- Witness for C9 at a concrete heap and document. -/
theorem serialize_doc_run_frame_witness :
    0 < heapC9.next ∧
    (hread (serialize_doc_run heapC9 0).2 0 = hread heapC9 0
     ∧ hread (serialize_doc_run heapC9 0).2 (serialize_doc_run heapC9 0).1 =
         serialize_doc (hread heapC9 0)) :=
  ⟨Nat.zero_lt_one, serialize_doc_run_frame heapC9 0 Nat.zero_lt_one⟩

/-! ### ObjectId parsing and the get-product endpoint (C2) -/

/-- A hexadecimal digit, as accepted by `bson.ObjectId` string input. -/
def isHexChar (c : Char) : Bool :=
  (('0' ≤ c && c ≤ '9') || ('a' ≤ c && c ≤ 'f') || ('A' ≤ c && c ≤ 'F'))

/-- A string is a well-formed ObjectId literal: exactly 24 hex characters. -/
def isValidOidStr (s : String) : Bool :=
  s.length = 24 && s.toList.all isHexChar

/-- `ObjectId(product_id)`: succeeds exactly on well-formed 24-hex-char
strings, normalizing to the lowercase form that `str(ObjectId(...))`
produces; raises (here: `none`) otherwise. -/
def parseOID (s : String) : Option OID :=
  if isValidOidStr s then some ⟨String.mk (s.data.map Char.toLower)⟩ else none

/-- `db["product"].find_one({"_id": ObjectId(...)})`: first stored document
whose `_id` equals the given identifier, if any. -/
def find_one_by_id (dbp : List Doc) (o : OID) : Option Doc :=
  dbp.find? (fun d => decide (dget "_id" d = some (.vOid o)))

/-- A Python exception escaping the `try` block of `get_product`. -/
inductive PyExc where
  | invalidId
  | typeErr
  | http (code : Nat) (detail : String)
deriving DecidableEq, Repr

/-- An HTTP response at the level this embedding needs: a success payload
document with its status code, or an error status with its detail. -/
inductive HResp where
  | ok (code : Nat) (d : Doc)
  | err (code : Nat) (detail : String)
deriving DecidableEq, Repr

/-- The `try` block of `get_product` in `src/main.py`: accessing the store
with no database raises, `ObjectId(product_id)` raises on a malformed id,
and a missing (or falsy) document raises `HTTPException(404)`. -/
def get_product_body (dbOpt : Option (List Doc)) (product_id : String) :
    Except PyExc Doc :=
  match dbOpt with
  | none => .error .typeErr
  | some dbp =>
    match parseOID product_id with
    | none => .error .invalidId
    | some o =>
      match find_one_by_id dbp o with
      | none => .error (.http 404 "Product not found")
      | some doc =>
        if doc.isEmpty then .error (.http 404 "Product not found")
        else .ok (serialize_doc doc)

/-- `get_product` from `src/main.py`: the `except Exception` clause catches
every exception raised in the `try` block — including the
`HTTPException(404)` raised for a missing document — and turns it into a
400 "Invalid product id" response. -/
def get_product (dbOpt : Option (List Doc)) (product_id : String) : HResp :=
  match get_product_body dbOpt product_id with
  | .ok d => .ok 200 d
  | .error _ => .err 400 "Invalid product id"

/-- C2 (failing input): `"662f0c5e9d3b2a1f4e8d7c6b"` is a well-formed
ObjectId, no document is stored, the handler body raises the 404
not-found HTTPException — and the endpoint nevertheless answers
400 "Invalid product id", because the catch-all `except` swallows the
HTTPException.  The claim's malformed-id half does hold: a malformed id
also answers 400. -/
theorem get_product_wellformed_absent_gives_400 :
    isValidOidStr "662f0c5e9d3b2a1f4e8d7c6b" = true
    ∧ get_product_body (some []) "662f0c5e9d3b2a1f4e8d7c6b" =
        .error (.http 404 "Product not found")
    ∧ get_product (some []) "662f0c5e9d3b2a1f4e8d7c6b" =
        .err 400 "Invalid product id"
    ∧ get_product (some []) "not-an-objectid" = .err 400 "Invalid product id" := by
  refine ⟨by decide, ?_, by decide, by decide⟩
  rfl

/-! ### Listing products (C3, C10) -/

/-- Modelled from the spec: `get_documents` lives in the `database` module,
which is not in the repository snapshot.  Per the spec's Storage Adapter,
Find(collection, filter) returns all documents matching a simple equality
map, the empty filter matching everything. -/
def get_documents (dbp : List Doc) (filter_q : Doc) : List Doc :=
  dbp.filter (fun d => filter_q.all (fun p => decide (dget p.1 d = some p.2)))

/-- `list_products` from `src/main.py`: `{"category": category} if category
else {}` — the filter is used only when the parameter is present and truthy
(a non-empty string); results are serialized. -/
def list_products (dbp : List Doc) (category : Option String) : List Doc :=
  let filter_q : Doc :=
    match category with
    | some c => if c = "" then [] else [("category", .vStr c)]
    | none => []
  (get_documents dbp filter_q).map serialize_doc

theorem get_documents_nil_filter (dbp : List Doc) :
    get_documents dbp [] = dbp := by
  unfold get_documents
  induction dbp with
  | nil => rfl
  | cons d t ih => simp [List.filter, ih]

theorem get_documents_single_filter (dbp : List Doc) (k : String) (v : BVal) :
    get_documents dbp [(k, v)] =
      dbp.filter (fun d => decide (dget k d = some v)) := by
  unfold get_documents
  induction dbp with
  | nil => rfl
  | cons d t ih =>
    by_cases hd : dget k d = some v
    · simp [List.filter, hd, ih]
    · simp [List.filter, hd, ih]

/-- C3 (amended): for every non-empty category string X the listing returns
exactly the serialized stored Products whose category equals X under
case-sensitive comparison, and with the parameter absent all stored
Products are returned. -/
theorem list_products_filters_by_category (dbp : List Doc) (x : String)
    (hx : x ≠ "") :
    list_products dbp (some x) =
      (dbp.filter (fun d => decide (dget "category" d = some (.vStr x)))).map
        serialize_doc
    ∧ list_products dbp none = dbp.map serialize_doc := by
  constructor
  · rw [list_products]
    rw [if_neg hx, get_documents_single_filter]
  · rw [list_products, get_documents_nil_filter]

/-- A two-document store used for the C3 counterexample and witnesses. -/
def dbC3 : List Doc :=
  [[("_id", .vOid ⟨"662f0c5e9d3b2a1f4e8d7c01"⟩), ("title", .vStr "Essential Tee"),
    ("price", .vNum 24), ("category", .vStr "Tops")],
   [("_id", .vOid ⟨"662f0c5e9d3b2a1f4e8d7c02"⟩), ("title", .vStr "Slim Chinos"),
    ("price", .vNum 64), ("category", .vStr "Bottoms")]]

/-- C3 (counterexample to the claim as stated, at X = ""): the listing with
`category=""` returns both stored Products, not the empty subset of
Products whose category is the empty string. -/
theorem list_products_empty_string_cex :
    list_products dbC3 (some "") ≠
      (dbC3.filter (fun d => decide (dget "category" d = some (.vStr "")))).map
        serialize_doc := by
  decide

/-- Witness for the amended C3 at a concrete store and category. -/
theorem list_products_filters_by_category_witness :
    ("Tops" : String) ≠ "" ∧
    (list_products dbC3 (some "Tops") =
      (dbC3.filter (fun d => decide (dget "category" d = some (.vStr "Tops")))).map
        serialize_doc
     ∧ list_products dbC3 none = dbC3.map serialize_doc) :=
  ⟨by decide, list_products_filters_by_category dbC3 "Tops" (by decide)⟩

/-- C10: passing `category=""` behaves exactly like omitting the parameter:
the falsy filter is dropped and every stored Product is returned. -/
theorem list_products_empty_string_unfiltered (dbp : List Doc) :
    list_products dbp (some "") = dbp.map serialize_doc
    ∧ list_products dbp (some "") = list_products dbp none := by
  have h1 : list_products dbp (some "") = dbp.map serialize_doc := by
    rw [list_products]
    rw [if_pos rfl, get_documents_nil_filter]
  have h2 : list_products dbp none = dbp.map serialize_doc := by
    rw [list_products, get_documents_nil_filter]
  exact ⟨h1, h1.trans h2.symm⟩

/-! ### Categories (C4) and database-unavailable mode (C8) -/

/-- Modelled from the spec: `db["product"].distinct("category")` is a store
operation of the missing database driver; per the spec's Storage Adapter it
returns the deduplicated values the field takes across all documents (in
store order; the endpoint itself sorts and drops falsy values). -/
def mongo_distinct_category (dbp : List Doc) : List String :=
  (dbp.filterMap (fun d =>
    match dget "category" d with
    | some (.vStr s) => some s
    | _ => none)).dedup

/-- `list_categories` from `src/main.py`: `[]` when the store handle is
unset, otherwise `sorted([c for c in cats if c])` over the distinct
category values. -/
def list_categories (dbOpt : Option (List Doc)) : List String :=
  match dbOpt with
  | none => []
  | some dbp =>
      List.insertionSort (· ≤ ·)
        ((mongo_distinct_category dbp).filter (fun c => c ≠ ""))

theorem mem_mongo_distinct_category (dbp : List Doc) (s : String) :
    s ∈ mongo_distinct_category dbp ↔
      ∃ d ∈ dbp, dget "category" d = some (.vStr s) := by
  unfold mongo_distinct_category
  rw [List.mem_dedup, List.mem_filterMap]
  constructor
  · rintro ⟨d, hd, hf⟩
    refine ⟨d, hd, ?_⟩
    cases hg : dget "category" d with
    | none => rw [hg] at hf; exact absurd hf (by simp)
    | some v =>
      cases v with
      | vStr t => rw [hg] at hf; simp at hf; rw [hf]
      | vNum q => rw [hg] at hf; exact absurd hf (by simp)
      | vBool b => rw [hg] at hf; exact absurd hf (by simp)
      | vNull => rw [hg] at hf; exact absurd hf (by simp)
      | vOid o => rw [hg] at hf; exact absurd hf (by simp)
  · rintro ⟨d, hd, hg⟩
    exact ⟨d, hd, by rw [hg]⟩

/-- C4: `/api/categories` returns a list that is sorted ascending, has no
duplicates, and contains exactly the non-empty category values occurring in
the stored Products. -/
theorem list_categories_spec (dbp : List Doc) :
    (list_categories (some dbp)).Sorted (· ≤ ·)
    ∧ (list_categories (some dbp)).Nodup
    ∧ (∀ s, s ∈ list_categories (some dbp) ↔
        s ≠ "" ∧ ∃ d ∈ dbp, dget "category" d = some (.vStr s)) := by
  refine ⟨?_, ?_, ?_⟩
  · exact List.sorted_insertionSort (· ≤ ·) _
  · have hperm := List.perm_insertionSort (· ≤ ·)
      ((mongo_distinct_category dbp).filter (fun c => c ≠ ""))
    rw [list_categories]
    rw [hperm.nodup_iff]
    exact (List.nodup_dedup _).filter _
  · intro s
    rw [list_categories]
    have hperm := List.perm_insertionSort (· ≤ ·)
      ((mongo_distinct_category dbp).filter (fun c => c ≠ ""))
    rw [hperm.mem_iff, List.mem_filter]
    rw [mem_mongo_distinct_category]
    constructor
    · rintro ⟨h1, h2⟩
      exact ⟨by simpa using h2, h1⟩
    · rintro ⟨h1, h2⟩
      exact ⟨h2, by simpa using h1⟩

/-- The store state used by the C8 theorem's write half. -/
def seedErr : Nat × String := (500, "Database not available")

/-! ### Seeding (C5) and the write half of C8 -/

/-- The outcome of `POST /api/seed`: inserted count plus optional message. -/
structure SeedOut where
  inserted : Nat
  message : Option String
deriving DecidableEq, Repr

/-- The fixed demo documents from `src/main.py` (store ids not yet
assigned, exactly as passed to `insert_many`). -/
def demo_docs : List Doc :=
  [[("title", .vStr "Essential Tee"),
    ("description", .vStr "Ultra-soft cotton tee with a relaxed fit."),
    ("price", .vNum 24),
    ("category", .vStr "Tops"),
    ("in_stock", .vBool true),
    ("image", .vStr "https://images.unsplash.com/photo-1520975922215-c994c6a8dffd?q=80&w=1200&auto=format&fit=crop")],
   [("title", .vStr "Everyday Hoodie"),
    ("description", .vStr "Cozy fleece hoodie for all-day comfort."),
    ("price", .vNum 58),
    ("category", .vStr "Hoodies"),
    ("in_stock", .vBool true),
    ("image", .vStr "https://images.unsplash.com/photo-1521572163474-6864f9cf17ab?q=80&w=1200&auto=format&fit=crop")],
   [("title", .vStr "Slim Chinos"),
    ("description", .vStr "Tailored chinos with stretch for movement."),
    ("price", .vNum 64),
    ("category", .vStr "Bottoms"),
    ("in_stock", .vBool true),
    ("image", .vStr "https://images.unsplash.com/photo-1520975916090-3105956dac38?q=80&w=1200&auto=format&fit=crop")],
   [("title", .vStr "Classic Denim Jacket"),
    ("description", .vStr "Timeless denim with a modern wash."),
    ("price", .vNum 89),
    ("category", .vStr "Outerwear"),
    ("in_stock", .vBool true),
    ("image", .vStr "https://images.unsplash.com/photo-1520975693416-35b05b6cb4f2?q=80&w=1200&auto=format&fit=crop")],
   [("title", .vStr "Athletic Joggers"),
    ("description", .vStr "Lightweight joggers for lounge or gym."),
    ("price", .vNum 49),
    ("category", .vStr "Bottoms"),
    ("in_stock", .vBool true),
    ("image", .vStr "https://images.unsplash.com/photo-1541099649105-f69ad21f3246?q=80&w=1200&auto=format&fit=crop")]]

/-- Modelled from the spec: `insert_many` of the store driver persists the
batch, assigning each document a fresh store id. -/
def insert_many (dbp : List Doc) (docs : List Doc) (fresh : Nat → OID) :
    List Doc :=
  dbp ++ docs.enum.map (fun p => ("_id", BVal.vOid (fresh p.1)) :: p.2)

/-- `seed_products` from `src/main.py`: a 500 error when the store handle is
unset; a no-op reporting zero inserted when any Product exists
(`count_documents({}) > 0`); otherwise the demo batch is inserted. -/
def seed_products (dbOpt : Option (List Doc)) (fresh : Nat → OID) :
    Except (Nat × String) SeedOut × Option (List Doc) :=
  match dbOpt with
  | none => (.error seedErr, none)
  | some dbp =>
    if dbp.length > 0 then
      (.ok ⟨0, some "Products already exist"⟩, some dbp)
    else
      let newDocs := demo_docs.enum.map
        (fun p => ("_id", BVal.vOid (fresh p.1)) :: p.2)
      (.ok ⟨newDocs.length, none⟩, some (dbp ++ newDocs))

/-- C5: seeding is idempotent — on any non-empty Product collection the
seed endpoint inserts 0 documents, reports "Products already exist" and
leaves the collection unchanged; on the empty collection it inserts the
5 fixed demo documents. -/
theorem seed_products_idempotent (dbp : List Doc) (fresh : Nat → OID)
    (hne : dbp ≠ []) :
    seed_products (some dbp) fresh =
      (.ok ⟨0, some "Products already exist"⟩, some dbp)
    ∧ (seed_products (some []) fresh).1 = .ok ⟨demo_docs.length, none⟩
    ∧ demo_docs.length = 5 := by
  refine ⟨?_, ?_, rfl⟩
  · have hlen : dbp.length > 0 := List.length_pos.mpr hne
    rw [seed_products]
    simp only [hlen, if_true]
  · rw [seed_products]
    simp [insert_many, demo_docs]

/-- Witness for C5 at a concrete non-empty collection. -/
theorem seed_products_idempotent_witness :
    dbC3 ≠ [] ∧
    (seed_products (some dbC3) (fun _ => ⟨"662f0c5e9d3b2a1f4e8d7c99"⟩) =
      (.ok ⟨0, some "Products already exist"⟩, some dbC3)
     ∧ (seed_products (some []) (fun _ => ⟨"662f0c5e9d3b2a1f4e8d7c99"⟩)).1 =
        .ok ⟨demo_docs.length, none⟩
     ∧ demo_docs.length = 5) :=
  ⟨by decide, seed_products_idempotent dbC3 _ (by decide)⟩

/-- C8: with the store handle unset, `GET /api/categories` degrades to an
empty array while `POST /api/seed` fails with the 500
"Database not available" error. -/
theorem db_unavailable_mode (fresh : Nat → OID) :
    list_categories none = []
    ∧ seed_products none fresh = (.error (500, "Database not available"), none) := by
  exact ⟨rfl, rfl⟩

/-! ### Creating products: schema validation and round trip (C6, C7) -/

/-- A validated Product payload, after schema parsing. -/
structure ProductIn where
  title : String
  description : Option String
  price : ℚ
  category : String
  in_stock : Bool
  image : Option String
deriving DecidableEq, Repr

/-- Required string field: must be present, a string, and non-empty. -/
def reqStr (payload : Doc) (field : String) : Except String String :=
  match dget field payload with
  | some (.vStr s) =>
      if s = "" then .error (field ++ " must be non-empty") else .ok s
  | some _ => .error (field ++ " must be a string")
  | none => .error (field ++ " is required")

/-- Optional string field: absent or null means absent. -/
def optStr (payload : Doc) (field : String) : Except String (Option String) :=
  match dget field payload with
  | none => .ok none
  | some .vNull => .ok none
  | some (.vStr s) => .ok (some s)
  | some _ => .error (field ++ " must be a string")

/-- Optional boolean field with a default. -/
def optBool (payload : Doc) (field : String) (dflt : Bool) :
    Except String Bool :=
  match dget field payload with
  | none => .ok dflt
  | some (.vBool b) => .ok b
  | some _ => .error (field ++ " must be a boolean")

/-- Required numeric field: must be present, a number, and non-negative. -/
def reqNum (payload : Doc) (field : String) : Except String ℚ :=
  match dget field payload with
  | some (.vNum q) =>
      if q < 0 then .error (field ++ " must be non-negative") else .ok q
  | some _ => .error (field ++ " must be a number")
  | none => .error (field ++ " is required")

/-- Modelled from the spec: the `Product` schema lives in the missing
`schemas` module.  Per the spec's Parse, the required fields are a
non-empty `title`, a non-negative `price` and a non-empty `category`;
`description` and `image` are optional (default absent) and `in_stock`
defaults to true; a missing or wrongly typed field is a validation
error. -/
def parse_product (payload : Doc) : Except String ProductIn := do
  let t ← reqStr payload "title"
  let d ← optStr payload "description"
  let p ← reqNum payload "price"
  let c ← reqStr payload "category"
  let s ← optBool payload "in_stock" true
  let i ← optStr payload "image"
  return ⟨t, d, p, c, s, i⟩

/-- `product.model_dump()` for the schema above: every schema field is
present in the dump, absent optionals as `None`. -/
def product_dump (pr : ProductIn) : Doc :=
  [("title", .vStr pr.title),
   ("description", match pr.description with | some s => .vStr s | none => .vNull),
   ("price", .vNum pr.price),
   ("category", .vStr pr.category),
   ("in_stock", .vBool pr.in_stock),
   ("image", match pr.image with | some s => .vStr s | none => .vNull)]

/-- Modelled from the spec: `create_document` lives in the missing
`database` module; per the spec's Insert it persists one new record with a
fresh store-assigned id and returns the id's string form. -/
def create_document (dbp : List Doc) (data : Doc) (oid : OID) :
    String × List Doc :=
  (oid.hex, dbp ++ [("_id", BVal.vOid oid) :: data])

/-- The body of `create_product` from `src/main.py` (after FastAPI has
validated the payload into the schema): dump the model, default `image` to
`None` when the dump lacks it, insert, and answer 201 with the id. -/
def create_product (dbp : List Doc) (pr : ProductIn) (oid : OID) :
    HResp × List Doc :=
  let data := product_dump pr
  let data := if dictHasKey "image" data then data else dictSet "image" .vNull data
  let (iid, dbp') := create_document dbp data oid
  (.ok 201 [("id", .vStr iid)], dbp')

/-- `POST /api/products` as a whole: FastAPI rejects a payload that fails
schema validation with a 422 client error before the handler runs. -/
def post_products (dbp : List Doc) (payload : Doc) (oid : OID) :
    HResp × List Doc :=
  match parse_product payload with
  | .error msg => (.err 422 msg, dbp)
  | .ok pr => create_product dbp pr oid

theorem reqStr_ok (payload : Doc) (f s : String)
    (h : reqStr payload f = .ok s) :
    dget f payload = some (.vStr s) ∧ s ≠ "" := by
  unfold reqStr at h
  cases hg : dget f payload with
  | none => rw [hg] at h; simp at h
  | some v =>
    rw [hg] at h
    cases v with
    | vStr t =>
      by_cases he : t = ""
      · simp [he] at h
      · simp [he] at h
        subst h
        exact ⟨rfl, he⟩
    | vNum q => simp at h
    | vBool b => simp at h
    | vNull => simp at h
    | vOid o => simp at h

theorem reqNum_ok (payload : Doc) (f : String) (q : ℚ)
    (h : reqNum payload f = .ok q) :
    dget f payload = some (.vNum q) ∧ ¬q < 0 := by
  unfold reqNum at h
  cases hg : dget f payload with
  | none => rw [hg] at h; simp at h
  | some v =>
    rw [hg] at h
    cases v with
    | vNum p =>
      by_cases hn : p < 0
      · simp [hn] at h
      · simp [hn] at h
        subst h
        exact ⟨rfl, hn⟩
    | vStr t => simp at h
    | vBool b => simp at h
    | vNull => simp at h
    | vOid o => simp at h

theorem parse_product_ok_char (payload : Doc) (pr : ProductIn)
    (h : parse_product payload = .ok pr) :
    dget "title" payload = some (.vStr pr.title)
    ∧ pr.title ≠ ""
    ∧ dget "price" payload = some (.vNum pr.price)
    ∧ ¬pr.price < 0
    ∧ dget "category" payload = some (.vStr pr.category)
    ∧ pr.category ≠ ""
    ∧ (dget "in_stock" payload = none → pr.in_stock = true)
    ∧ (dget "image" payload = none → pr.image = none) := by
  unfold parse_product at h
  cases ht : reqStr payload "title" with
  | error e => rw [ht] at h; simp [Bind.bind, Except.bind] at h
  | ok t =>
  rw [ht] at h
  cases hd : optStr payload "description" with
  | error e => rw [hd] at h; simp [Bind.bind, Except.bind] at h
  | ok dsc =>
  rw [hd] at h
  cases hpq : reqNum payload "price" with
  | error e => rw [hpq] at h; simp [Bind.bind, Except.bind] at h
  | ok p =>
  rw [hpq] at h
  cases hc : reqStr payload "category" with
  | error e => rw [hc] at h; simp [Bind.bind, Except.bind] at h
  | ok c =>
  rw [hc] at h
  cases hs : optBool payload "in_stock" true with
  | error e => rw [hs] at h; simp [Bind.bind, Except.bind] at h
  | ok st =>
  rw [hs] at h
  cases hi : optStr payload "image" with
  | error e => rw [hi] at h; simp [Bind.bind, Except.bind] at h
  | ok im =>
  rw [hi] at h
  have hpr : pr = ⟨t, dsc, p, c, st, im⟩ := by
    simp [Bind.bind, Except.bind, pure, Except.pure] at h
    exact h.symm
  subst hpr
  obtain ⟨ht1, ht2⟩ := reqStr_ok payload "title" t ht
  obtain ⟨hp1, hp2⟩ := reqNum_ok payload "price" p hpq
  obtain ⟨hc1, hc2⟩ := reqStr_ok payload "category" c hc
  refine ⟨ht1, ht2, hp1, hp2, hc1, hc2, ?_, ?_⟩
  · intro hnone
    unfold optBool at hs
    rw [hnone] at hs
    simpa using hs.symm
  · intro hnone
    unfold optStr at hi
    rw [hnone] at hi
    simpa using hi.symm

/-- Present-and-string test on a looked-up field. -/
def isStrVal : Option BVal → Bool
  | some (.vStr _) => true
  | _ => false

/-- Present-and-number test on a looked-up field. -/
def isNumVal : Option BVal → Bool
  | some (.vNum _) => true
  | _ => false

/-- C7: a create payload that misses a required field, types it wrongly, or
violates its constraint (empty title, negative price, empty category) is
rejected with a 422 client error and the store is left unchanged. -/
theorem create_product_validation (dbp : List Doc) (payload : Doc) (oid : OID)
    (h : isStrVal (dget "title" payload) = false
       ∨ dget "title" payload = some (.vStr "")
       ∨ isNumVal (dget "price" payload) = false
       ∨ (∃ q, dget "price" payload = some (.vNum q) ∧ q < 0)
       ∨ isStrVal (dget "category" payload) = false
       ∨ dget "category" payload = some (.vStr "")) :
    ∃ msg, post_products dbp payload oid = (.err 422 msg, dbp) := by
  cases hp : parse_product payload with
  | error msg =>
    refine ⟨msg, ?_⟩
    rw [post_products, hp]
  | ok pr =>
    exfalso
    obtain ⟨h1, h2, h3, h4, h5, h6, _, _⟩ := parse_product_ok_char payload pr hp
    rcases h with h | h | h | h | h | h
    · rw [h1] at h; simp [isStrVal] at h
    · have := h1.symm.trans h
      simp at this
      exact h2 this
    · rw [h3] at h; simp [isNumVal] at h
    · obtain ⟨q, hq, hlt⟩ := h
      have := h3.symm.trans hq
      simp at this
      exact h4 (this ▸ hlt)
    · rw [h5] at h; simp [isStrVal] at h
    · have := h5.symm.trans h
      simp at this
      exact h6 this

/-- Witness for C7: the empty payload misses every required field. -/
theorem create_product_validation_witness :
    (isStrVal (dget "title" ([] : Doc)) = false
     ∨ dget "title" ([] : Doc) = some (.vStr "")
     ∨ isNumVal (dget "price" ([] : Doc)) = false
     ∨ (∃ q, dget "price" ([] : Doc) = some (.vNum q) ∧ q < 0)
     ∨ isStrVal (dget "category" ([] : Doc)) = false
     ∨ dget "category" ([] : Doc) = some (.vStr ""))
    ∧ ∃ msg, post_products [] [] ⟨"662f0c5e9d3b2a1f4e8d7c42"⟩ =
        (.err 422 msg, []) :=
  ⟨Or.inl (by decide),
   create_product_validation [] [] ⟨"662f0c5e9d3b2a1f4e8d7c42"⟩
     (Or.inl (by decide))⟩

theorem find_one_skip (dbp : List Doc) (nd : Doc) (o : OID)
    (h : ∀ d ∈ dbp, dget "_id" d ≠ some (.vOid o))
    (hnd : dget "_id" nd = some (.vOid o)) :
    find_one_by_id (dbp ++ [nd]) o = some nd := by
  induction dbp with
  | nil =>
    unfold find_one_by_id
    simp [List.find?, hnd]
  | cons d tl ih =>
    have hd : dget "_id" d ≠ some (.vOid o) := h d (List.mem_cons_self d tl)
    have htl : ∀ x ∈ tl, dget "_id" x ≠ some (.vOid o) :=
      fun x hx => h x (List.mem_cons_of_mem d hx)
    have ih2 := ih htl
    unfold find_one_by_id at ih2 ⊢
    simp only [List.cons_append, List.find?]
    simp [hd, ih2]

/-- C6: creating a valid Product and then fetching it by the returned id
round-trips — the create call answers 201 with the new id, and the fetch
returns a serialized document agreeing with the payload on title, price and
category, carrying the string id, no `_id`, `in_stock` defaulting to true
and `image` to null when those fields were not supplied. -/
theorem create_then_fetch_roundtrip (dbp : List Doc) (payload : Doc)
    (pr : ProductIn) (oid : OID)
    (hp : parse_product payload = .ok pr)
    (hv : isValidOidStr oid.hex = true)
    (hl : String.mk (oid.hex.data.map Char.toLower) = oid.hex)
    (hfresh : ∀ d ∈ dbp, dget "_id" d ≠ some (.vOid oid)) :
    (post_products dbp payload oid).1 = .ok 201 [("id", .vStr oid.hex)]
    ∧ ∃ d', get_product (some (post_products dbp payload oid).2) oid.hex =
              .ok 200 d'
        ∧ dget "title" d' = dget "title" payload
        ∧ dget "price" d' = dget "price" payload
        ∧ dget "category" d' = dget "category" payload
        ∧ dget "id" d' = some (.vStr oid.hex)
        ∧ dget "_id" d' = none
        ∧ dget "in_stock" d' = some (.vBool pr.in_stock)
        ∧ (dget "in_stock" payload = none →
            dget "in_stock" d' = some (.vBool true))
        ∧ (dget "image" payload = none → dget "image" d' = some .vNull) := by
  obtain ⟨h1, _h2, h3, _h4, h5, _h6, h7, h8⟩ :=
    parse_product_ok_char payload pr hp
  have hck : dictHasKey "image" (product_dump pr) = true := rfl
  have hpost : post_products dbp payload oid =
      (.ok 201 [("id", .vStr oid.hex)],
       dbp ++ [("_id", BVal.vOid oid) :: product_dump pr]) := by
    simp [post_products, hp, create_product, create_document, hck]
  have hpost2 : (post_products dbp payload oid).2 =
      dbp ++ [("_id", BVal.vOid oid) :: product_dump pr] := by
    rw [hpost]
  have hparse2 : parseOID oid.hex = some oid := by
    rw [parseOID, if_pos hv, hl]
  have hfind : find_one_by_id
      (dbp ++ [("_id", BVal.vOid oid) :: product_dump pr]) oid =
      some (("_id", BVal.vOid oid) :: product_dump pr) :=
    find_one_skip dbp _ oid hfresh rfl
  have hbody : get_product_body
      (some (dbp ++ [("_id", BVal.vOid oid) :: product_dump pr])) oid.hex =
      .ok (serialize_doc (("_id", BVal.vOid oid) :: product_dump pr)) := by
    simp only [get_product_body, hparse2, hfind]
    rw [if_neg (by simp)]
  have hget : get_product
      (some (dbp ++ [("_id", BVal.vOid oid) :: product_dump pr])) oid.hex =
      .ok 200 (serialize_doc (("_id", BVal.vOid oid) :: product_dump pr)) := by
    simp only [get_product, hbody]
  refine ⟨by rw [hpost], serialize_doc (("_id", BVal.vOid oid) :: product_dump pr),
    ?_, ?_, ?_, ?_, ?_, ?_, ?_, ?_, ?_⟩
  · rw [hpost2]
    exact hget
  · rw [h1]; rfl
  · rw [h3]; rfl
  · rw [h5]; rfl
  · rfl
  · rfl
  · rfl
  · intro hno
    have hst : pr.in_stock = true := h7 hno
    have hbase : dget "in_stock"
        (serialize_doc (("_id", BVal.vOid oid) :: product_dump pr)) =
        some (BVal.vBool pr.in_stock) := rfl
    rw [hst] at hbase
    exact hbase
  · intro hno
    have him : pr.image = none := h8 hno
    have hbase : dget "image"
        (serialize_doc (("_id", BVal.vOid oid) :: product_dump pr)) =
        some (convOid (match pr.image with
          | some s => BVal.vStr s
          | none => BVal.vNull)) := rfl
    rw [him] at hbase
    exact hbase

/-- The concrete create payload of the spec's worked example. -/
def payloadC6 : Doc :=
  [("title", .vStr "Tee"), ("price", .vNum 10), ("category", .vStr "Tops")]

/-- The validated form of `payloadC6`, defaults applied. -/
def prC6 : ProductIn := ⟨"Tee", none, 10, "Tops", true, none⟩

/-- A concrete store-assigned identifier. -/
def oidC6 : OID := ⟨"662f0c5e9d3b2a1f4e8d7caa"⟩

/-- Witness for C6 at the spec's worked example. -/
theorem create_then_fetch_roundtrip_witness :
    (parse_product payloadC6 = .ok prC6
     ∧ isValidOidStr oidC6.hex = true
     ∧ String.mk (oidC6.hex.data.map Char.toLower) = oidC6.hex
     ∧ (∀ d ∈ ([] : List Doc), dget "_id" d ≠ some (.vOid oidC6)))
    ∧ ((post_products [] payloadC6 oidC6).1 = .ok 201 [("id", .vStr oidC6.hex)]
       ∧ ∃ d', get_product (some (post_products [] payloadC6 oidC6).2)
                 oidC6.hex = .ok 200 d'
           ∧ dget "title" d' = dget "title" payloadC6
           ∧ dget "price" d' = dget "price" payloadC6
           ∧ dget "category" d' = dget "category" payloadC6
           ∧ dget "id" d' = some (.vStr oidC6.hex)
           ∧ dget "_id" d' = none
           ∧ dget "in_stock" d' = some (.vBool prC6.in_stock)
           ∧ (dget "in_stock" payloadC6 = none →
               dget "in_stock" d' = some (.vBool true))
           ∧ (dget "image" payloadC6 = none →
               dget "image" d' = some .vNull)) :=
  ⟨⟨rfl, by decide, by decide, by simp⟩,
   create_then_fetch_roundtrip [] payloadC6 prC6 oidC6 rfl (by decide)
     (by decide) (by simp)⟩
